import Mathlib

/-!
Shallow embedding of `src/perceval/backends/core/liferay.py` (the Liferay
backend of perceval).

Modelling conventions:
* Python dicts holding JSON entity records become association lists
  (`Record`) with first-match lookup (`recGet`) and replace-or-append
  assignment (`recSet`), matching dict subscripting and item assignment.
* JSON scalar values are `JVal` (integers and strings suffice for every
  field the code touches).
* The identity index `identities` (a dict from user id to a dict with
  `screenName`/`emailAddress`) becomes `IdIndex`; `identities.update`
  with a one-key dict becomes `idUpdate`, which prepends the new binding
  so that lookup (`idLookup`, first match) observes the latest write,
  exactly the observable behaviour of dict update.
* JSON decoding (`json.loads` inside `parse_entries`, an external library
  call) is abstracted at the collaborator boundary: page streams are given
  to the orchestrator model already decoded, as lists of pages of records.
* Raising (KeyError on a missing dict key, NameError on the unbound loop
  variable `entry`) becomes `Except PyErr` / an `Option PyErr` component;
  a generator that raises has delivered the items yielded before the raise,
  so each phase returns the list of yielded items together with the error.
* Python integers become `ℤ`; `float(x / 1000)` on an integer `x` becomes
  the exact rational `x / 1000` (the one value the claims evaluate,
  1609459200000 / 1000, is exactly representable in binary64, so the
  rational model agrees with IEEE there).
-/

/-- A JSON scalar value as used by the Liferay records. -/
inductive JVal where
  | num (n : ℤ)
  | str (s : String)
  deriving DecidableEq, Repr

/-- A loosely-typed entity record: a Python dict from field name to value. -/
abbrev Record := List (String × JVal)

/-- Dict lookup `r[key]` (as an `Option`): first binding for `key`. -/
def recGet : Record → String → Option JVal
  | [], _ => none
  | (k, v) :: r, key => if k = key then some v else recGet r key

/-- Dict item assignment `r[key] = val`: replace the existing binding or
append a new one. -/
def recSet : Record → String → JVal → Record
  | [], key, val => [(key, val)]
  | (k, v) :: r, key, val =>
    if k = key then (key, val) :: r else (k, v) :: recSet r key val

/-- A Python exception raised by the orchestrator code: `KeyError` for a
missing dict key, `NameError` for an unbound variable. -/
inductive PyErr where
  | keyError (k : String)
  | nameError (v : String)
  deriving DecidableEq, Repr

/-- The identity index: user id ↦ (screenName, emailAddress). -/
abbrev IdIndex := List (JVal × JVal × JVal)

/-- Dict lookup `identities[uid]`: first (i.e. most recent) binding. -/
def idLookup : IdIndex → JVal → Option (JVal × JVal)
  | [], _ => none
  | (k, sn, ea) :: rest, uid =>
    if k = uid then some (sn, ea) else idLookup rest uid

/-- `identities.update({uid: {screenName, emailAddress}})`: the new binding
shadows any previous one for the same id. -/
def idUpdate (identities : IdIndex) (uid sn ea : JVal) : IdIndex :=
  (uid, sn, ea) :: identities

/-- Embeds `Liferay.get_identity` (liferay.py lines 212-217):
`{user[userId]: {screenName: user[screenName], emailAddress: user[emailAddress]}}`.
Each subscript raises `KeyError` when the key is missing, in the evaluation
order of the dict display (userId, then screenName, then emailAddress). -/
def get_identity (user : Record) : Except PyErr (JVal × JVal × JVal) :=
  match recGet user "userId" with
  | none => .error (.keyError "userId")
  | some uid =>
    match recGet user "screenName" with
    | none => .error (.keyError "screenName")
    | some sn =>
      match recGet user "emailAddress" with
      | none => .error (.keyError "emailAddress")
      | some ea => .ok (uid, sn, ea)

/-- A user record carries all three fields `get_identity` reads. -/
def hasIdentityFields (u : Record) : Prop :=
  (recGet u "userId").isSome = true ∧ (recGet u "screenName").isSome = true ∧
    (recGet u "emailAddress").isSome = true

instance (u : Record) : Decidable (hasIdentityFields u) := by
  unfold hasIdentityFields; infer_instance

/-- The (screenName, emailAddress) pair of a user record, when present. -/
def identityOf (u : Record) : Option (JVal × JVal) :=
  match recGet u "screenName", recGet u "emailAddress" with
  | some sn, some ea => some (sn, ea)
  | _, _ => none

/-- User phase of `Liferay.fetch_items` over one parsed page
(liferay.py lines 111-113): for each user, `identities.update(get_identity(user))`
then `yield user`; a `KeyError` inside `get_identity` aborts the generator
before the yield.  Returns (yielded items, final index, error). -/
def processUsersList (identities : IdIndex) :
    List Record → List Record × IdIndex × Option PyErr
  | [] => ([], identities, none)
  | u :: us =>
    match get_identity u with
    | .error err => ([], identities, some err)
    | .ok (uid, sn, ea) =>
      let next := processUsersList (idUpdate identities uid sn ea) us
      (u :: next.1, next.2.1, next.2.2)

/-- User phase over the page stream (liferay.py lines 109-113). -/
def processUsersPages (identities : IdIndex) :
    List (List Record) → List Record × IdIndex × Option PyErr
  | [] => ([], identities, none)
  | pg :: pgs =>
    match processUsersList identities pg with
    | (items, idx2, some err) => (items, idx2, some err)
    | (items, idx2, none) =>
      match processUsersPages idx2 pgs with
      | (items2, idx3, err2) => (items ++ items2, idx3, err2)

/-- One blog record of the blog phase of `Liferay.fetch_items`
(liferay.py lines 121-126): read `entry[userId]` (KeyError when absent);
when the id is in the index, set `screenName` then `emailAddress` on the
record from the index; yield the (possibly mutated) record. -/
def processBlogEntry (identities : IdIndex) (entry : Record) :
    Except PyErr Record :=
  match recGet entry "userId" with
  | none => .error (.keyError "userId")
  | some uid =>
    match idLookup identities uid with
    | some (sn, ea) => .ok (recSet (recSet entry "screenName" sn) "emailAddress" ea)
    | none => .ok entry

/-- Blog phase over one parsed page; threads the loop variable `entry`
(as the last record assigned to it), which outlives the loop. -/
def processBlogList (identities : IdIndex) :
    List Record → Option Record → List Record × Option Record × Option PyErr
  | [], lastEntry => ([], lastEntry, none)
  | e :: es, _lastEntry =>
    match processBlogEntry identities e with
    | .error err => ([], some e, some err)
    | .ok e2 =>
      match processBlogList identities es (some e2) with
      | (items, le, err) => (e2 :: items, le, err)

/-- Blog phase over the page stream (liferay.py lines 119-126). -/
def processBlogPages (identities : IdIndex) :
    List (List Record) → Option Record → List Record × Option Record × Option PyErr
  | [], lastEntry => ([], lastEntry, none)
  | pg :: pgs, lastEntry =>
    match processBlogList identities pg lastEntry with
    | (items, le, some err) => (items, le, some err)
    | (items, le, none) =>
      match processBlogPages identities pgs le with
      | (items2, le2, err2) => (items ++ items2, le2, err2)

/-- One message record of the message phase of `Liferay.fetch_items`
(liferay.py lines 137-142): read `message[userId]` (KeyError when absent);
when the id is in the index, enrich `message` in place — a computation whose
result the code then discards, because the statement executed next is
`yield entry`: it yields the blog phase's loop variable (NameError when no
blog record was ever processed), not the message. -/
def processMessageRecord (identities : IdIndex) (lastEntry : Option Record)
    (message : Record) : Except PyErr Record :=
  match recGet message "userId" with
  | none => .error (.keyError "userId")
  | some uid =>
    let _enriched : Record :=
      match idLookup identities uid with
      | some (sn, ea) => recSet (recSet message "screenName" sn) "emailAddress" ea
      | none => message
    match lastEntry with
    | none => .error (.nameError "entry")
    | some e => .ok e

/-- Message phase over one parsed page. -/
def processMessageList (identities : IdIndex) (lastEntry : Option Record) :
    List Record → List Record × Option PyErr
  | [] => ([], none)
  | msg :: msgs =>
    match processMessageRecord identities lastEntry msg with
    | .error err => ([], some err)
    | .ok item =>
      match processMessageList identities lastEntry msgs with
      | (items, err) => (item :: items, err)

/-- Message phase over the page stream of one category. -/
def processMessagePages (identities : IdIndex) (lastEntry : Option Record) :
    List (List Record) → List Record × Option PyErr
  | [] => ([], none)
  | pg :: pgs =>
    match processMessageList identities lastEntry pg with
    | (items, some err) => (items, some err)
    | (items, none) =>
      match processMessagePages identities lastEntry pgs with
      | (items2, err2) => (items ++ items2, err2)

/-- Message phase over all categories (liferay.py lines 132-142). -/
def processMessageCats (identities : IdIndex) (lastEntry : Option Record) :
    List (List (List Record)) → List Record × Option PyErr
  | [] => ([], none)
  | cat :: cats =>
    match processMessagePages identities lastEntry cat with
    | (items, some err) => (items, some err)
    | (items, none) =>
      match processMessageCats identities lastEntry cats with
      | (items2, err2) => (items ++ items2, err2)

/-- Embeds `Liferay.fetch_items` (liferay.py lines 94-142): the user phase
builds the identity index and yields each user; the blog phase enriches and
yields each blog entry; the message phase runs per category and yields
(because of the `yield entry` slip) the blog phase's last loop variable once
per message.  Page streams arrive already JSON-decoded (see the module
comment).  Returns (yielded items, error that aborted the generator). -/
def fetch_items (userPages blogPages : List (List Record))
    (messagePagesByCategory : List (List (List Record))) :
    List Record × Option PyErr :=
  match processUsersPages [] userPages with
  | (uItems, _, some err) => (uItems, some err)
  | (uItems, identities, none) =>
    match processBlogPages identities blogPages none with
    | (bItems, _, some err) => (uItems ++ bItems, some err)
    | (bItems, lastEntry, none) =>
      match processMessageCats identities lastEntry messagePagesByCategory with
      | (mItems, err) => (uItems ++ bItems ++ mItems, err)

/-- `CATEGORY_BLOG` (liferay.py line 34). -/
def CATEGORY_BLOG : String := "blog"

/-- `CATEGORY_MESSAGE` (liferay.py line 35). -/
def CATEGORY_MESSAGE : String := "message"

/-- `CATEGORY_USER` (liferay.py line 36). -/
def CATEGORY_USER : String := "user"

/-- Embeds `Liferay.metadata_updated_on` (liferay.py lines 166-178):
`float(item[modifiedDate] / 1000)`.  `none` models the raised exception
(KeyError when the field is absent, TypeError when it is not a number). -/
def metadata_updated_on (item : Record) : Option ℚ :=
  match recGet item "modifiedDate" with
  | some (.num n) => some ((n : ℚ) / 1000)
  | _ => none

/-- Embeds `Liferay.metadata_category` (liferay.py lines 180-195). -/
def metadata_category (item : Record) : String :=
  if (recGet item "entryId").isSome then CATEGORY_BLOG
  else if (recGet item "messageId").isSome then CATEGORY_MESSAGE
  else CATEGORY_USER

/-- The body of the `while entries:` loop of `LiferayClient.get_entries`
(liferay.py lines 306-319), entered after the unconditional first request.
State: `start`/`end_` as already advanced by `min(max_results, total)`,
and `entries`, the text of the most recently fetched response.  The page
text is truthy in Python exactly when it is a non-empty string.  `resp`
maps a request payload's (start, end) window to the response text; the
returned pair is (payloads of the requests issued inside the loop, pages
yielded).  `fuel` bounds the recursion depth; `get_entries` passes
`total.toNat + 1`, which exceeds the greatest possible number of loop
iterations whenever `0 < m` (each iteration that issues a request needs
`start + m < total` and advances `start` by `m`), so the fuel never runs
out on the runs the theorems below describe. -/
def entriesLoop (m total : ℤ) (resp : ℤ → ℤ → String) :
    ℕ → ℤ → ℤ → String → List (ℤ × ℤ) × List String
  | 0, _, _, _ => ([], [])
  | fuel + 1, start, end_, entries =>
    if entries = "" then ([], [])
    else if start + m < total then
      let next := entriesLoop m total resp fuel (start + m) (end_ + m) (resp start end_)
      ((start, end_) :: next.1, entries :: next.2)
    else
      ([], [entries])

/-- Embeds `LiferayClient.get_entries` (liferay.py lines 288-319) with
page size `m` (the client's `max_results`): issue the first request with
window (0, m) unconditionally, advance `start` and `end` by
`min(m, total)`, then run the `while entries:` loop.  Returns (payloads of
every request issued, pages yielded). -/
def get_entries (m total : ℤ) (resp : ℤ → ℤ → String) :
    List (ℤ × ℤ) × List String :=
  let entries := resp 0 m
  let start : ℤ := 0 + min m total
  let end_ : ℤ := m + min m total
  let next := entriesLoop m total resp (total.toNat + 1) start end_ entries
  ((0, m) :: next.1, next.2)

/-- Follows the spec's words (not the source): the identity that "last write
per `userId` wins" assigns to `uid` after inserting the users `us` over a
prior index — the `screenName`/`emailAddress` of the last record of `us`
whose `userId` is `uid`, falling back to the prior index. -/
def specLastIdentity (identities : IdIndex) (us : List Record) (uid : JVal) :
    Option (JVal × JVal) :=
  match us.reverse.find? (fun u => decide (recGet u "userId" = some uid)) with
  | some u => identityOf u
  | none => idLookup identities uid

/-- Concrete blog record for exercising the message phase. -/
def msgPhaseBlog : Record := [("entryId", JVal.num 1), ("userId", JVal.num 5)]

/-- Concrete message record for exercising the message phase. -/
def msgPhaseMessage : Record := [("messageId", JVal.num 2), ("userId", JVal.num 5)]

/-- Transport oracle whose second page (window (100, 200)) is empty. -/
def emptyAtSecondResp : ℤ → ℤ → String :=
  fun s _ => if s = 0 then "A" else ""

/-- The identity index after indexing the spec's example user record
`{userId: 7, screenName: "alice", emailAddress: "a@x.com"}`. -/
def aliceIndex : IdIndex :=
  idUpdate [] (JVal.num 7) (JVal.str "alice") (JVal.str "a@x.com")

/-- The spec's example blog record
`{entryId: 42, userId: 7, uuid: "u1", modifiedDate: 1000000}`. -/
def aliceBlog : Record :=
  [("entryId", JVal.num 42), ("userId", JVal.num 7), ("uuid", JVal.str "u1"),
   ("modifiedDate", JVal.num 1000000)]

/-- Two well-formed user records sharing `userId` 1 (duplicate-id case). -/
def dupUsers : List Record :=
  [[("userId", JVal.num 1), ("screenName", JVal.str "a"), ("emailAddress", JVal.str "e1")],
   [("userId", JVal.num 1), ("screenName", JVal.str "b"), ("emailAddress", JVal.str "e2")]]

/-! ### Claim theorems (with helper lemmas) -/

/-- C1: the claim says the pagination loop continues while `start < total`
and yields exactly `ceil(total / pageSize)` pages when every page is
non-empty and full.  The code instead pre-advances `start` by
`min(pageSize, total)` and continues only while `start + pageSize < total`:
at total = 150, pageSize = 100, with every response non-empty, it issues
only the window (0, 100) and yields a single page, although
`ceil(150 / 100) = (150 + 100 - 1) / 100 = 2`, so the final partial page
(and its 50 entities) is never requested. -/
theorem get_entries_drops_final_page :
    (get_entries 100 150 (fun _ _ => "P")).2.length = 1 ∧
    (get_entries 100 150 (fun _ _ => "P")).1 = [(0, 100)] ∧
    ((150 : ℤ) + 100 - 1) / 100 = 2 :=
  ⟨rfl, rfl, by decide⟩

/-- C2: the claim says each message-phase item is the (possibly enriched)
message record itself.  The code's message phase executes `yield entry`,
the blog phase's leftover loop variable: with no users, one blog record
`msgPhaseBlog` and one message record `msgPhaseMessage`, the run yields the
blog record twice and the message record never. -/
theorem fetch_items_message_phase_yields_blog_record :
    fetch_items [] [[msgPhaseBlog]] [[[msgPhaseMessage]]] =
      ([msgPhaseBlog, msgPhaseBlog], none) ∧
    msgPhaseBlog ≠ msgPhaseMessage :=
  ⟨rfl, by decide⟩

/-- C3 counterexample: the claim says that with total = 0 no HTTP list
request is issued and no page is yielded.  The code issues the first
request unconditionally; with total = 0 and response text "[]" (what the
API returns for an empty resource) it issues one request and even yields
that page. -/
theorem get_entries_total_zero_issues_request :
    (get_entries 100 0 (fun _ _ => "[]")).1.length = 1 ∧
    (get_entries 100 0 (fun _ _ => "[]")).2.length = 1 :=
  ⟨rfl, rfl⟩

/-- C5: a blog record whose `userId` is in the identity index is yielded
with `screenName` then `emailAddress` set from the index; one whose
`userId` has no matching identity is yielded unmodified (in particular, no
`screenName`/`emailAddress` keys are added). -/
theorem blog_enrichment (identities : IdIndex) (entry : Record) (uid : JVal)
    (h : recGet entry "userId" = some uid) :
    (∀ sn ea : JVal, idLookup identities uid = some (sn, ea) →
      processBlogEntry identities entry =
        Except.ok (recSet (recSet entry "screenName" sn) "emailAddress" ea)) ∧
    (idLookup identities uid = none →
      processBlogEntry identities entry = Except.ok entry) := by
  constructor
  · intro sn ea hl
    simp only [processBlogEntry, h, hl]
  · intro hl
    simp only [processBlogEntry, h, hl]

/-- Witness for C5, on the spec's example: the user
`{userId: 7, screenName: "alice", emailAddress: "a@x.com"}` indexed before
the blog `{entryId: 42, userId: 7, uuid: "u1", modifiedDate: 1000000}`
makes the yielded blog item carry `screenName "alice"` and
`emailAddress "a@x.com"`. -/
theorem blog_enrichment_witness :
    processBlogEntry aliceIndex aliceBlog = Except.ok
      [("entryId", JVal.num 42), ("userId", JVal.num 7), ("uuid", JVal.str "u1"),
       ("modifiedDate", JVal.num 1000000), ("screenName", JVal.str "alice"),
       ("emailAddress", JVal.str "a@x.com")] := by
  have h := (blog_enrichment aliceIndex aliceBlog (JVal.num 7) rfl).1
    (JVal.str "alice") (JVal.str "a@x.com") rfl
  rw [h]
  rfl

/-- C6 counterexample: the claim says every parsed user record is yielded
regardless of whether its insertion into the identity index succeeds.  On a
user record missing `screenName`, `get_identity` raises KeyError before the
yield, so the run aborts having yielded nothing. -/
theorem user_missing_field_aborts_before_yield :
    (fetch_items [[[("userId", JVal.num 1)]]] [] []).1 = [] ∧
    (fetch_items [[[("userId", JVal.num 1)]]] [] []).2 =
      some (PyErr.keyError "screenName") :=
  ⟨rfl, rfl⟩

/-- C8: `metadata_category` checks `entryId` first (so a record carrying
both `entryId` and `messageId` classifies as blog), then `messageId`, and
otherwise classifies the record as user. -/
theorem metadata_category_priority (item : Record) :
    ((recGet item "entryId").isSome = true →
      metadata_category item = CATEGORY_BLOG) ∧
    (recGet item "entryId" = none → (recGet item "messageId").isSome = true →
      metadata_category item = CATEGORY_MESSAGE) ∧
    (recGet item "entryId" = none → recGet item "messageId" = none →
      metadata_category item = CATEGORY_USER) := by
  unfold metadata_category
  refine ⟨fun h => by simp [h], fun h1 h2 => by simp [h1, h2],
    fun h1 h2 => by simp [h1, h2]⟩

/-- Witness for C8: a record carrying both identifying keys classifies as
blog. -/
theorem metadata_category_priority_witness :
    metadata_category [("entryId", JVal.num 1), ("messageId", JVal.num 2)] =
      CATEGORY_BLOG :=
  (metadata_category_priority _).1 rfl

/-- C9: `metadata_updated_on` divides a numeric `modifiedDate` by 1000
(a millisecond timestamp becoming seconds) and fails when the field is
absent (KeyError) or not a number (TypeError), both modelled as `none`. -/
theorem metadata_updated_on_spec (item : Record) :
    (∀ n : ℤ, recGet item "modifiedDate" = some (JVal.num n) →
      metadata_updated_on item = some ((n : ℚ) / 1000)) ∧
    (recGet item "modifiedDate" = none → metadata_updated_on item = none) ∧
    (∀ s : String, recGet item "modifiedDate" = some (JVal.str s) →
      metadata_updated_on item = none) := by
  unfold metadata_updated_on
  exact ⟨fun n h => by rw [h], fun h => by rw [h], fun s h => by rw [h]⟩

/-- Witness for C9, on the spec's example: `{modifiedDate: 1609459200000}`
gives 1609459200 seconds (exactly representable, so the rational model
agrees with the Python float). -/
theorem metadata_updated_on_spec_witness :
    metadata_updated_on [("modifiedDate", JVal.num 1609459200000)] =
      some (1609459200 : ℚ) := by
  have h := (metadata_updated_on_spec
    [("modifiedDate", JVal.num 1609459200000)]).1 1609459200000 rfl
  rw [h]
  norm_num

/-- C10: both enrichment phases subscript `record[userId]` before the index
lookup, so a blog or message record lacking the `userId` key raises
KeyError instead of being yielded unenriched; a run whose first blog record
lacks `userId` aborts with that error having yielded nothing, whatever the
message input. -/
theorem userId_read_unconditionally (identities : IdIndex) (e : Record)
    (h : recGet e "userId" = none) :
    processBlogEntry identities e = Except.error (PyErr.keyError "userId") ∧
    (∀ lastEntry : Option Record,
      processMessageRecord identities lastEntry e =
        Except.error (PyErr.keyError "userId")) ∧
    (∀ mps, fetch_items [] [[e]] mps = ([], some (PyErr.keyError "userId"))) := by
  refine ⟨by unfold processBlogEntry; rw [h],
    fun lastEntry => by unfold processMessageRecord; rw [h], fun mps => ?_⟩
  simp [fetch_items, processUsersPages, processBlogPages, processBlogList,
    processBlogEntry, h]

/-- Witness for C10: a blog record carrying only `entryId` aborts the run
with KeyError "userId". -/
theorem userId_read_unconditionally_witness :
    fetch_items [] [[[("entryId", JVal.num 1)]]] [] =
      ([], some (PyErr.keyError "userId")) :=
  (userId_read_unconditionally [] [("entryId", JVal.num 1)] rfl).2.2 []

/-- Unfolding equation of `entriesLoop` for positive fuel. -/
theorem entriesLoop_succ (m total : ℤ) (resp : ℤ → ℤ → String)
    (fuel : ℕ) (s e : ℤ) (p : String) :
    entriesLoop m total resp (fuel + 1) s e p =
      if p = "" then ([], [])
      else if s + m < total then
        ((s, e) :: (entriesLoop m total resp fuel (s + m) (e + m) (resp s e)).1,
          p :: (entriesLoop m total resp fuel (s + m) (e + m) (resp s e)).2)
      else ([], [p]) := rfl

/-- An empty response text ends the loop at once: nothing is yielded and no
further request is issued. -/
theorem entriesLoop_empty (m total : ℤ) (resp : ℤ → ℤ → String)
    (fuel : ℕ) (s e : ℤ) :
    entriesLoop m total resp fuel s e "" = ([], []) := by
  cases fuel with
  | zero => rfl
  | succ fuel => rw [entriesLoop_succ]; simp

/-- The loop issues a request only under the guard `start + m < total`. -/
theorem entriesLoop_ne_nil_bound (m total : ℤ) (resp : ℤ → ℤ → String)
    (fuel : ℕ) (s e : ℤ) (p : String)
    (h : (entriesLoop m total resp fuel s e p).1 ≠ []) : s + m < total := by
  cases fuel with
  | zero => simp [entriesLoop] at h
  | succ fuel =>
    rw [entriesLoop_succ] at h
    by_cases hp : p = ""
    · simp [hp] at h
    · by_cases hb : s + m < total
      · exact hb
      · simp [hp, hb] at h

/-- The payloads the loop issues from state (s, e) are
(s, e), (s + m, e + m), (s + 2m, e + 2m), … . -/
theorem entriesLoop_reqs_shape (m total : ℤ) (resp : ℤ → ℤ → String) :
    ∀ (fuel : ℕ) (s e : ℤ) (p : String),
    (entriesLoop m total resp fuel s e p).1 =
      (List.range (entriesLoop m total resp fuel s e p).1.length).map
        (fun i : ℕ => (s + (i : ℤ) * m, e + (i : ℤ) * m)) := by
  intro fuel
  induction fuel with
  | zero => intro s e p; rfl
  | succ fuel ih =>
    intro s e p
    rw [entriesLoop_succ]
    by_cases hp : p = ""
    · simp [hp]
    · by_cases hb : s + m < total
      · simp only [if_neg hp, if_pos hb]
        rw [List.length_cons, List.range_succ_eq_map, List.map_cons, List.map_map]
        congr 1
        · simp
        · rw [ih (s + m) (e + m) (resp s e)]
          rw [List.length_map, List.length_range]
          apply List.map_congr_left
          intro i _
          simp only [Function.comp_apply, Nat.succ_eq_add_one, Prod.mk.injEq]
          constructor <;> (push_cast; ring)
      · simp [hp, hb]

/-- The i-th request of a `get_entries` run has payload window
(i * m, i * m + m). -/
theorem get_entries_req_get? (m total : ℤ) (resp : ℤ → ℤ → String)
    (hm : 0 < m) (ht : 0 ≤ total) (i : ℕ)
    (h : i < (get_entries m total resp).1.length) :
    (get_entries m total resp).1.get? i =
      some ((i : ℤ) * m, (i : ℤ) * m + m) := by
  simp only [get_entries] at h ⊢
  cases i with
  | zero => simp
  | succ i =>
    rw [List.get?_cons_succ]
    simp only [List.length_cons] at h
    have hi : i < (entriesLoop m total resp (total.toNat + 1)
        (0 + min m total) (m + min m total) (resp 0 m)).1.length := by omega
    have hne : (entriesLoop m total resp (total.toNat + 1)
        (0 + min m total) (m + min m total) (resp 0 m)).1 ≠ [] :=
      List.ne_nil_of_length_pos (by omega)
    have hbound := entriesLoop_ne_nil_bound m total resp _ _ _ _ hne
    have hmin : min m total = m := by omega
    rw [entriesLoop_reqs_shape m total resp]
    rw [List.get?_map, List.get?_range (by simpa using hi)]
    simp only [Option.map_some', Option.some.injEq, hmin, Prod.mk.injEq]
    constructor <;> (push_cast; ring)

/-- C7: across one `get_entries` run (pageSize > 0, total ≥ 0) the start
offsets of successive request payloads advance by exactly `m`, no start
offset is requested twice, and no offset is negative. -/
theorem get_entries_offsets (m total : ℤ) (resp : ℤ → ℤ → String)
    (hm : 0 < m) (ht : 0 ≤ total) :
    (∀ i : ℕ, ∀ h1 : i + 1 < (get_entries m total resp).1.length,
      ((get_entries m total resp).1.get ⟨i + 1, h1⟩).1 =
        ((get_entries m total resp).1.get ⟨i, by omega⟩).1 + m) ∧
    (∀ i j : ℕ, ∀ hi : i < (get_entries m total resp).1.length,
      ∀ hj : j < (get_entries m total resp).1.length,
      ((get_entries m total resp).1.get ⟨i, hi⟩).1 =
        ((get_entries m total resp).1.get ⟨j, hj⟩).1 → i = j) ∧
    (∀ q ∈ (get_entries m total resp).1, 0 ≤ q.1) := by
  have hg : ∀ i : ℕ, ∀ h : i < (get_entries m total resp).1.length,
      (get_entries m total resp).1.get ⟨i, h⟩ =
        ((i : ℤ) * m, (i : ℤ) * m + m) := by
    intro i h
    have h1 := get_entries_req_get? m total resp hm ht i h
    have h2 := List.get?_eq_get h
    rw [h1] at h2
    exact (Option.some.inj h2).symm
  refine ⟨?_, ?_, ?_⟩
  · intro i h1
    rw [hg (i + 1) h1, hg i (by omega)]
    push_cast
    ring
  · intro i j hi hj hij
    rw [hg i hi, hg j hj] at hij
    have : (i : ℤ) = (j : ℤ) := mul_right_cancel₀ (ne_of_gt hm) hij
    exact_mod_cast this
  · intro q hq
    obtain ⟨⟨i, hi⟩, rfl⟩ := List.mem_iff_get.mp hq
    rw [hg i hi]
    exact mul_nonneg (Int.natCast_nonneg i) hm.le

/-- Witness for C7: with pageSize 100 and total 250, the second request's
start offset exceeds the first by exactly 100. -/
theorem get_entries_offsets_witness :
    ((get_entries 100 250 (fun _ _ => "x")).1.get ⟨1, by decide⟩).1 =
      ((get_entries 100 250 (fun _ _ => "x")).1.get ⟨0, by decide⟩).1 + 100 :=
  (get_entries_offsets 100 250 (fun _ _ => "x") (by decide) (by decide)).1 0
    (by decide)

/-- With enough fuel, the pages the loop yields are the longest prefix of
non-empty texts among the pending page and the responses to the requests it
issues (any empty response is dropped and ends the run). -/
theorem entriesLoop_pages (m total : ℤ) (resp : ℤ → ℤ → String)
    (hm : 0 < m) : ∀ (fuel : ℕ) (s e : ℤ) (p : String),
    (total - s).toNat < fuel →
    (entriesLoop m total resp fuel s e p).2 =
      (p :: (entriesLoop m total resp fuel s e p).1.map
        (fun q => resp q.1 q.2)).takeWhile (fun t => !(t == "")) := by
  intro fuel
  induction fuel with
  | zero => intro s e p hf; omega
  | succ fuel ih =>
    intro s e p hf
    rw [entriesLoop_succ]
    by_cases hp : p = ""
    · simp [hp]
    · by_cases hb : s + m < total
      · simp only [if_neg hp, if_pos hb]
        rw [List.map_cons, List.takeWhile_cons]
        have hpb : (!(p == "")) = true := by simp [hp]
        rw [if_pos hpb]
        have := ih (s + m) (e + m) (resp s e) (by omega)
        rw [this]
      · simp only [if_neg hp, if_neg hb]
        rw [List.map_nil, List.takeWhile_cons]
        have hpb : (!(p == "")) = true := by simp [hp]
        rw [if_pos hpb]
        rfl

/-- If the response to the loop's i-th request is empty, that request is
the last one the loop issues. -/
theorem entriesLoop_resp_empty_last (m total : ℤ) (resp : ℤ → ℤ → String) :
    ∀ (fuel : ℕ) (s e : ℤ) (p : String) (i : ℕ),
    ((entriesLoop m total resp fuel s e p).1.map
      (fun q => resp q.1 q.2)).get? i = some "" →
    (entriesLoop m total resp fuel s e p).1.length = i + 1 := by
  intro fuel
  induction fuel with
  | zero => intro s e p i h; simp [entriesLoop] at h
  | succ fuel ih =>
    intro s e p i h
    rw [entriesLoop_succ] at h ⊢
    by_cases hp : p = ""
    · simp [hp] at h
    · by_cases hb : s + m < total
      · simp only [if_neg hp, if_pos hb] at h ⊢
        rw [List.map_cons] at h
        cases i with
        | zero =>
          rw [List.get?_cons_zero] at h
          have hre : resp s e = "" := Option.some.inj h
          rw [hre, entriesLoop_empty]
          rfl
        | succ i =>
          rw [List.get?_cons_succ] at h
          have := ih (s + m) (e + m) (resp s e) i h
          simp [this]
      · simp [hp, hb] at h

/-- C4: the pages `get_entries` yields are exactly the longest prefix of
non-empty response texts (so an empty page is itself never yielded), and
whenever the response to the i-th request is empty, that request is the
last one issued: no further list requests follow the empty page. -/
theorem get_entries_empty_page_stops (m total : ℤ) (resp : ℤ → ℤ → String)
    (hm : 0 < m) (ht : 0 ≤ total) :
    (get_entries m total resp).2 =
      ((get_entries m total resp).1.map (fun q => resp q.1 q.2)).takeWhile
        (fun t => !(t == "")) ∧
    ∀ i : ℕ, ((get_entries m total resp).1.map
        (fun q => resp q.1 q.2)).get? i = some "" →
      (get_entries m total resp).1.length = i + 1 := by
  constructor
  · simp only [get_entries, List.map_cons]
    exact entriesLoop_pages m total resp hm (total.toNat + 1)
      (0 + min m total) (m + min m total) (resp 0 m) (by omega)
  · intro i h
    simp only [get_entries, List.map_cons] at h ⊢
    cases i with
    | zero =>
      rw [List.get?_cons_zero] at h
      have hre : resp 0 m = "" := Option.some.inj h
      rw [hre, entriesLoop_empty]
      rfl
    | succ i =>
      rw [List.get?_cons_succ] at h
      have := entriesLoop_resp_empty_last m total resp (total.toNat + 1)
        (0 + min m total) (m + min m total) (resp 0 m) i h
      rw [List.length_cons, this]

/-- Witness for C4: with pageSize 100 and total 500, a transport whose
second response (window (100, 200)) is empty makes `get_entries` yield only
the first page and issue exactly two requests — none after the empty one. -/
theorem get_entries_empty_page_stops_witness :
    (get_entries 100 500 emptyAtSecondResp).2 = ["A"] ∧
    (get_entries 100 500 emptyAtSecondResp).1.length = 2 := by
  have h := get_entries_empty_page_stops 100 500 emptyAtSecondResp
    (by decide) (by decide)
  refine ⟨?_, h.2 1 rfl⟩
  rw [h.1]
  rfl

/-- C3 amended: with total = 0 (and pageSize > 0), `get_entries` still
issues exactly one HTTP list request, with window (0, m); it yields no page
exactly when the response text is empty, and otherwise yields that single
page; either way it issues no further requests. -/
theorem get_entries_total_zero_single_request (m : ℤ) (resp : ℤ → ℤ → String)
    (hm : 0 < m) :
    (get_entries m 0 resp).1 = [(0, m)] ∧
    (get_entries m 0 resp).2 = (if resp 0 m = "" then [] else [resp 0 m]) := by
  have hmin : min m (0 : ℤ) = 0 := min_eq_right hm.le
  simp only [get_entries, hmin]
  rw [entriesLoop_succ]
  by_cases hp : resp 0 m = ""
  · simp [hp]
  · have hb : ¬ (m < 0) := by omega
    simp [hp, hb]

/-- Witness for C3's amended claim: total = 0, pageSize 100, response text
"[]" — one request, one yielded page. -/
theorem get_entries_total_zero_single_request_witness :
    (get_entries 100 0 (fun _ _ => "[]")).1 = [(0, 100)] ∧
    (get_entries 100 0 (fun _ _ => "[]")).2 = ["[]"] := by
  have h := get_entries_total_zero_single_request 100 (fun _ _ => "[]")
    (by decide)
  exact ⟨h.1, by rw [h.2]; rfl⟩

/-- A user record with all three identity fields makes `get_identity`
succeed with exactly those field values. -/
theorem identity_fields_ok (u : Record) (h : hasIdentityFields u) :
    ∃ uid sn ea : JVal, recGet u "userId" = some uid ∧
      recGet u "screenName" = some sn ∧ recGet u "emailAddress" = some ea ∧
      get_identity u = Except.ok (uid, sn, ea) ∧
      identityOf u = some (sn, ea) := by
  obtain ⟨h1, h2, h3⟩ := h
  obtain ⟨uid, hu⟩ := Option.isSome_iff_exists.mp h1
  obtain ⟨sn, hs⟩ := Option.isSome_iff_exists.mp h2
  obtain ⟨ea, he⟩ := Option.isSome_iff_exists.mp h3
  exact ⟨uid, sn, ea, hu, hs, he, by simp [get_identity, hu, hs, he],
    by simp [identityOf, hs, he]⟩

/-- A user record missing one of the three identity fields makes
`get_identity` raise. -/
theorem identity_fields_missing (u : Record) (h : ¬ hasIdentityFields u) :
    ∃ err, get_identity u = Except.error err := by
  cases hu : recGet u "userId" with
  | none => exact ⟨PyErr.keyError "userId", by simp [get_identity, hu]⟩
  | some uid =>
    cases hs : recGet u "screenName" with
    | none => exact ⟨PyErr.keyError "screenName", by simp [get_identity, hu, hs]⟩
    | some sn =>
      cases he : recGet u "emailAddress" with
      | none =>
        exact ⟨PyErr.keyError "emailAddress", by simp [get_identity, hu, hs, he]⟩
      | some ea =>
        exact absurd ⟨by simp [hu], by simp [hs], by simp [he]⟩ h

/-- Inserting one well-formed user record and then the rest is the same,
for `specLastIdentity`, as prepending the record to the insertion list. -/
theorem specLastIdentity_cons (idx : IdIndex) (u : Record) (us : List Record)
    (uid0 sn ea : JVal) (hu : recGet u "userId" = some uid0)
    (hio : identityOf u = some (sn, ea)) (uid : JVal) :
    specLastIdentity idx (u :: us) uid =
      specLastIdentity (idUpdate idx uid0 sn ea) us uid := by
  unfold specLastIdentity
  rw [List.reverse_cons, List.find?_append]
  cases hf : us.reverse.find? (fun v => decide (recGet v "userId" = some uid)) with
  | some v => rfl
  | none =>
    simp only [Option.none_or]
    by_cases hd : uid0 = uid
    · subst hd
      simp [List.find?, hu, hio, idLookup, idUpdate]
    · have hne : ¬ (recGet u "userId" = some uid) := by
        rw [hu]
        simp [hd]
      simp [List.find?, hne, idLookup, idUpdate, hd]

/-- When every user record carries the three identity fields, the user
phase yields all of them in order, raises nothing, and the final identity
index resolves each id to the last matching record's values. -/
theorem processUsers_all_ok (us : List Record) : ∀ identities : IdIndex,
    (∀ u ∈ us, hasIdentityFields u) →
    (processUsersList identities us).1 = us ∧
    (processUsersList identities us).2.2 = none ∧
    ∀ uid : JVal, idLookup (processUsersList identities us).2.1 uid =
      specLastIdentity identities us uid := by
  induction us with
  | nil =>
    intro idx h
    exact ⟨rfl, rfl, fun uid => by simp [specLastIdentity, processUsersList]⟩
  | cons u us ih =>
    intro idx h
    obtain ⟨uid0, sn, ea, hu, hs, he, hok, hio⟩ :=
      identity_fields_ok u (h u (by simp))
    have ihh := ih (idUpdate idx uid0 sn ea) (fun v hv => h v (by simp [hv]))
    simp only [processUsersList, hok]
    refine ⟨by rw [ihh.1], ihh.2.1, fun uid => ?_⟩
    rw [ihh.2.2 uid, specLastIdentity_cons idx u us uid0 sn ea hu hio uid]

/-- A user record missing an identity field aborts the user phase exactly
there: the well-formed records before it are yielded, it is not, and the
run ends in an error. -/
theorem processUsers_abort (pre : List Record) :
    ∀ (identities : IdIndex) (bad : Record) (post : List Record),
    (∀ u ∈ pre, hasIdentityFields u) → ¬ hasIdentityFields bad →
    (processUsersList identities (pre ++ bad :: post)).1 = pre ∧
    (processUsersList identities (pre ++ bad :: post)).2.2 ≠ none := by
  induction pre with
  | nil =>
    intro idx bad post _ hbad
    obtain ⟨err, herr⟩ := identity_fields_missing bad hbad
    simp [processUsersList, herr]
  | cons p pre ih =>
    intro idx bad post hpre hbad
    obtain ⟨uid0, sn, ea, _, _, _, hok, _⟩ :=
      identity_fields_ok p (hpre p (by simp))
    have ihh := ih (idUpdate idx uid0 sn ea) bad post
      (fun v hv => hpre v (by simp [hv])) hbad
    simp only [List.cons_append, processUsersList, hok, List.append_eq]
    exact ⟨by rw [ihh.1], ihh.2⟩

/-- C6 amended: in the user phase, every parsed record carrying `userId`,
`screenName` and `emailAddress` is inserted into the identity index and
then yielded, duplicate ids being tolerated with the last-inserted record's
values winning; but a record missing any of the three aborts the phase with
a KeyError before that record is yielded (it is not "yielded regardless"). -/
theorem users_phase_amended (identities : IdIndex) (us : List Record) :
    ((∀ u ∈ us, hasIdentityFields u) →
      (processUsersList identities us).1 = us ∧
      (processUsersList identities us).2.2 = none ∧
      ∀ uid : JVal, idLookup (processUsersList identities us).2.1 uid =
        specLastIdentity identities us uid) ∧
    (∀ (pre : List Record) (bad : Record) (post : List Record),
      us = pre ++ bad :: post → (∀ u ∈ pre, hasIdentityFields u) →
      ¬ hasIdentityFields bad →
      (processUsersList identities us).1 = pre ∧
      (processUsersList identities us).2.2 ≠ none) := by
  refine ⟨processUsers_all_ok us identities, ?_⟩
  intro pre bad post heq hpre hbad
  subst heq
  exact processUsers_abort pre identities bad post hpre hbad

/-- Witness for C6's amended claim: two well-formed user records sharing
`userId` 1 are both yielded, and the final index resolves id 1 to the
second (last-inserted) record's screenName/emailAddress. -/
theorem users_phase_amended_witness :
    (processUsersList [] dupUsers).1 = dupUsers ∧
    idLookup (processUsersList [] dupUsers).2.1 (JVal.num 1) =
      some (JVal.str "b", JVal.str "e2") := by
  have h := (users_phase_amended [] dupUsers).1 (by decide)
  exact ⟨h.1, by rw [h.2.2 (JVal.num 1)]; rfl⟩
